import Mathlib

/-!
Verification development for the participant call-lifecycle core of the
audiosurvey application (src/app/state.py, src/app/scheduler.py,
src/app/twilio_handler.py, src/app/utils.py).

Shallow embedding conventions:
* Instants in time are modelled as `Int` (seconds on the UTC timeline).
  The Python code stores timestamps as ISO strings and parses them with
  the standard-library datetime parser; that external parser is abstracted
  into the constructors of `TimeField` / `SchedField`, which record, for a
  stored string field, whether the field is falsy (absent or empty),
  parses to an instant, or raises on parsing.  The repository code only
  branches on exactly these three outcomes.
* Python dicts keyed by participant id are modelled as association lists
  in insertion order (`Ledger`); key lookup and in-place item assignment
  are `lookupP` and `setP`.
* Statuses are kept as the raw strings the code compares against.
-/

/-- Outcome of the stored `last_call_time` field: `absent` models a falsy
value (None or empty string), `parses t` a string the datetime parser maps
to the instant `t`, `broken` a string on which the parser raises. -/
inductive TimeField where
  | absent
  | parses (t : Int)
  | broken
deriving DecidableEq, Repr

/-- Outcome of the stored `scheduled_time_utc` field, with the same three
cases as `TimeField` (the code of `_parse_utc_iso` raises exactly when the
stdlib parser does, after normalising a trailing Z). -/
inductive SchedField where
  | absent
  | parses (t : Int)
  | broken
deriving DecidableEq, Repr

/-- Participant record, following DEFAULT in src/app/state.py.  Field
defaults are the values of DEFAULT. -/
structure Participant where
  phone_e164 : Option String := none
  status : String := "pending"
  attempts : Nat := 0
  last_call_time : TimeField := TimeField.absent
  last_call_sid : Option String := none
  last_call_status : Option String := none
  engaged : Bool := false
  last_recording_url : Option String := none
  last_outputs : List (String × String) := []
  scheduled_time_local : Option String := none
  scheduled_time_utc : SchedField := SchedField.absent
deriving DecidableEq, Repr

/-- DEFAULT participant record (src/app/state.py lines 14-26). -/
def DEFAULT : Participant := {}

/-- RETRY_GAP = timedelta(hours=1), in seconds (src/app/state.py line 28). -/
def RETRY_GAP : Int := 3600

/-- MAX_ATTEMPTS (src/app/state.py line 29). -/
def MAX_ATTEMPTS : Nat := 3

/-- Participant ledger: the participants.json document, a dict keyed by
participant id, modelled as an association list in insertion order. -/
abbrev Ledger := List (String × Participant)

/-- Dict key lookup (`state.get(pid)`). -/
def lookupP : Ledger → String → Option Participant
  | [], _ => none
  | (k, p) :: rest, pid => if k = pid then some p else lookupP rest pid

/-- Dict item assignment (`state[pid] = p`): replaces the first binding of
the key, or appends a new binding when the key is absent. -/
def setP : Ledger → String → Participant → Ledger
  | [], pid, p => [(pid, p)]
  | (k, q) :: rest, pid, p =>
      if k = pid then (k, p) :: rest else (k, q) :: setP rest pid p

/-- Value the code reads for a participant id, with the DEFAULT record as
the fallback `setdefault` would insert. -/
def getP (state : Ledger) (pid : String) : Participant :=
  (lookupP state pid).getD DEFAULT

/-- Status of a participant id in a ledger (DEFAULT status when absent). -/
def statusOf (state : Ledger) (pid : String) : String := (getP state pid).status

/-- Attempts of a participant id in a ledger (0 when absent). -/
def attemptsOf (state : Ledger) (pid : String) : Nat := (getP state pid).attempts

/-- Retry-gap gate of can_call (src/app/state.py lines 161-173): eligible
when last_call_time is falsy or unparseable, otherwise requires
now - last_call_time >= RETRY_GAP. -/
def retryGapOk (now : Int) (p : Participant) : Bool :=
  match p.last_call_time with
  | TimeField.absent => true
  | TimeField.broken => true
  | TimeField.parses t => RETRY_GAP ≤ now - t

/-- Eligibility predicate can_call (src/app/state.py lines 124-173).
`now` is the value of the `_now_utc()` clock reads. -/
def can_call (now : Int) (state : Ledger) (participant_id : String)
    (require_schedule : Bool) : Bool :=
  match lookupP state participant_id with
  | none => !require_schedule
  | some p =>
    if p.status = "completed" ∨ p.status = "failed" then false
    else if MAX_ATTEMPTS ≤ p.attempts then false
    else if require_schedule ∧ p.scheduled_time_utc = SchedField.absent then false
    else
      match p.scheduled_time_utc with
      | SchedField.parses t => if now < t then false else retryGapOk now p
      | SchedField.broken => if require_schedule then false else retryGapOk now p
      | SchedField.absent => retryGapOk now p

/-- mark_engaged (src/app/state.py lines 176-178). -/
def mark_engaged (state : Ledger) (participant_id : String) : Ledger :=
  let p := getP state participant_id
  setP state participant_id { p with engaged := true }

/-- mark_call_started (src/app/state.py lines 181-187); `now` is the
instant `_now_iso()` records as last_call_time. -/
def mark_call_started (now : Int) (state : Ledger) (participant_id : String)
    (call_sid : String) : Ledger :=
  let p := getP state participant_id
  setP state participant_id
    { p with status := "in_progress",
             attempts := p.attempts + 1,
             last_call_time := TimeField.parses now,
             last_call_sid := some call_sid,
             engaged := false }

/-- mark_completed (src/app/state.py lines 190-194). -/
def mark_completed (state : Ledger) (participant_id : String)
    (recording_url : String) (outputs : List (String × String)) : Ledger :=
  let p := getP state participant_id
  setP state participant_id
    { p with status := "completed",
             last_recording_url := some recording_url,
             last_outputs := outputs }

/-- Python str.lower over the ASCII provider vocabulary, written by
structural recursion over the characters so that concrete instances
evaluate in the kernel. -/
def pyLower (s : String) : String := String.mk (s.data.map Char.toLower)

/-- Python str.strip (leading and trailing whitespace removed), written by
structural recursion over the characters. -/
def pyStrip (s : String) : String :=
  String.mk (((s.data.dropWhile Char.isWhitespace).reverse.dropWhile Char.isWhitespace).reverse)

/-- mark_call_result (src/app/state.py lines 212-237); the Python
call_status.lower().strip() normalisation is pyStrip after pyLower. -/
def mark_call_result (state : Ledger) (participant_id : String)
    (call_status : String) : Ledger :=
  let p0 := getP state participant_id
  let cs := pyStrip (pyLower call_status)
  let p := { p0 with last_call_status := some cs }
  if cs = "no-answer" ∨ cs = "busy" ∨ cs = "failed" ∨ cs = "canceled" then
    if MAX_ATTEMPTS ≤ p.attempts then
      setP state participant_id { p with status := "failed" }
    else
      setP state participant_id { p with status := "pending" }
  else if cs = "completed" then
    if p.status ≠ "completed" then
      setP state participant_id { p with status := "in_progress" }
    else
      setP state participant_id p
  else if cs = "initiated" ∨ cs = "ringing" ∨ cs = "answered" ∨ cs = "in-progress" then
    setP state participant_id { p with status := "in_progress" }
  else
    setP state participant_id p

/-- schedule_participant (src/app/utils.py lines 9-24), with the ambient
load/save of the ledger made explicit (input and output ledger) and the
external strptime + timezone conversion abstracted: `parsed` is none when
strptime raises on the entered local time, and otherwise carries the local
ISO string and the parse outcome of the UTC ISO string the conversion
produces.  A raised error is `Except.error`. -/
def schedule_participant (state : Ledger) (participant_id : String)
    (parsed : Option (String × SchedField)) : Except Unit Ledger :=
  match lookupP state participant_id with
  | none => Except.error ()
  | some p =>
    match parsed with
    | none => Except.error ()
    | some (localIso, utcField) =>
      let p1 := { p with scheduled_time_local := some localIso,
                         scheduled_time_utc := utcField }
      if ¬ (p1.status = "completed" ∨ p1.status = "failed") then
        Except.ok (setP state participant_id { p1 with status := "pending" })
      else
        Except.ok (setP state participant_id p1)

/-- find_participant_by_callsid (src/app/twilio_handler.py lines 562-566):
first participant whose last_call_sid equals the given call sid. -/
def find_participant_by_callsid : Ledger → String → Option (String × Participant)
  | [], _ => none
  | (pid, p) :: rest, call_sid =>
      if p.last_call_sid = some call_sid then some (pid, p)
      else find_participant_by_callsid rest call_sid

/-- Result of one invocation of the /call-status webhook handler:
the ledger as persisted afterwards, whether a 200 ok acknowledgment was
returned (it always is), and whether save_participants ran. -/
structure CsResult where
  state : Ledger
  respOk : Bool
  saved : Bool
deriving DecidableEq, Repr

/-- The /call-status webhook handler call_status
(src/app/twilio_handler.py lines 674-693), with the ambient load/save made
explicit.  `raw_status` is the CallStatus form field (empty string when
missing). -/
def call_status (state : Ledger) (call_sid raw_status : String) : CsResult :=
  let v := pyStrip (pyLower raw_status)
  match find_participant_by_callsid state call_sid with
  | none => { state := state, respOk := true, saved := false }
  | some (pid, _) =>
    let s1 := mark_call_result state pid v
    let engaged := (getP s1 pid).engaged
    let s2 := if v = "completed" ∧ ¬ engaged then
                setP s1 pid { getP s1 pid with status := "pending" }
              else s1
    { state := s2, respOk := true, saved := true }

/-- Response returned by the /recording-done handler. -/
inductive RdResp where
  | ok            -- ("ok", 200)
  | noRecording   -- ("no recording", 400)
  | raised        -- an uncaught exception propagated (download failure)
deriving DecidableEq, Repr

/-- External inputs of one /recording-done invocation that come from
outside the repository: whether the authenticated GET of the .wav resource
succeeds (requests.get + raise_for_status), the transcript and detected
language returned by transcribe_audio, and the text returned by
translate_to_english_chunked. -/
structure RdOracle where
  downloadOk : Bool
  transcript : String
  detected : String
  translated : String
deriving DecidableEq, Repr

/-- Observable outcome of one /recording-done invocation: the persisted
ledger, the HTTP response, and which side effects ran. -/
structure RdResult where
  state : Ledger
  resp : RdResp
  downloaded : Bool      -- the recording GET request was issued
  pipelineRan : Bool     -- transcribe_audio ran
  auditLogged : Bool     -- log_call_event appended a row
  saved : Bool           -- save_participants ran
deriving DecidableEq, Repr

/-- Word count used by the transcript guard, len(text.strip().split()) in
Python: the number of maximal non-whitespace runs, written by structural
recursion so concrete instances evaluate in the kernel. -/
def wordCount (text : String) : Nat :=
  (text.data.foldl
    (fun (acc : Nat × Bool) c =>
      if Char.isWhitespace c then (acc.1, false)
      else if acc.2 then acc else (acc.1 + 1, true))
    (0, false)).1

/-- The /recording-done webhook handler recording_done
(src/app/twilio_handler.py lines 696-776), ambient load/save explicit.
`recording_url` is none when the RecordingUrl field is falsy and
`rec_status` is the lowercased RecordingStatus field.  The artifact path
strings in `outputs` depend on the wall clock (safe_base) and on the data
directories; they are opaque to every property here, so the list records
only which artifacts exist. -/
def recording_done (state : Ledger) (call_sid : String)
    (recording_url : Option String) (rec_status : String)
    (oracle : RdOracle) : RdResult :=
  if rec_status ≠ "" ∧ rec_status ≠ "completed" then
    { state := state, resp := RdResp.ok,
      downloaded := false, pipelineRan := false, auditLogged := false, saved := false }
  else
    match recording_url with
    | none =>
      { state := state, resp := RdResp.noRecording,
        downloaded := false, pipelineRan := false, auditLogged := false, saved := false }
    | some url =>
      let found := find_participant_by_callsid state call_sid
      let known := found.isSome
      let engaged := match found with
                     | some (_, p) => p.engaged
                     | none => false
      let lastStatus := match found with
                        | some (_, p) => pyLower (p.last_call_status.getD "")
                        | none => ""
      if known && ((lastStatus == "no-answer") || (lastStatus == "busy") ||
                   (lastStatus == "failed") || (lastStatus == "canceled")) then
        { state := state, resp := RdResp.ok,
          downloaded := false, pipelineRan := false, auditLogged := false, saved := false }
      else if known && !engaged then
        { state := state, resp := RdResp.ok,
          downloaded := false, pipelineRan := false, auditLogged := false, saved := false }
      else if ¬ oracle.downloadOk then
        { state := state, resp := RdResp.raised,
          downloaded := true, pipelineRan := false, auditLogged := false, saved := false }
      else if wordCount oracle.transcript < 5 then
        { state := state, resp := RdResp.ok,
          downloaded := true, pipelineRan := true, auditLogged := false, saved := false }
      else
        let englishText := if oracle.detected.toLower = "en" then oracle.transcript
                           else oracle.translated
        let outputs := [("audio", call_sid), ("transcript", oracle.transcript),
                        ("translation", englishText), ("english_audio", call_sid)]
        match found with
        | some (pid, _) =>
          { state := mark_completed state pid url outputs,
            resp := RdResp.ok,
            downloaded := true, pipelineRan := true, auditLogged := true, saved := true }
        | none =>
          { state := state, resp := RdResp.ok,
            downloaded := true, pipelineRan := true, auditLogged := true, saved := false }

/-- Twilio environment configuration read by run_once
(src/app/scheduler.py lines 29-36): each field is the raw getenv result
(none when unset; PUBLIC_BASE_URL after its rstrip). -/
structure SchedEnv where
  twilio_sid : Option String
  twilio_token : Option String
  twilio_from : Option String
  public_base_url : Option String
deriving DecidableEq, Repr

/-- Python truthiness of an optional string env var. -/
def envTruthy : Option String → Bool
  | none => false
  | some s => s ≠ ""

/-- The `all([...])` guard of run_once over the four env vars. -/
def envComplete (e : SchedEnv) : Bool :=
  envTruthy e.twilio_sid && envTruthy e.twilio_token &&
  envTruthy e.twilio_from && envTruthy e.public_base_url

/-- Accumulated outcome of the dispatch loop inside run_once. -/
structure LoopOut where
  state : Ledger          -- the in-memory ledger after the loop
  anyCalled : Bool
  attempted : List String -- participants for which calls.create was invoked
  placed : List String    -- participants whose call placement succeeded
  errored : Bool          -- a placement raised; the loop aborted there
deriving DecidableEq, Repr

/-- Dispatch loop of run_once (src/app/scheduler.py lines 43-67): iterates
over the items of the loaded ledger, skipping participants with a falsy
phone or a false can_call; `place` is the external calls.create request,
which either returns a call sid or raises.  A raise propagates: the
remaining items are not visited. -/
def dispatchLoop (now : Int) (require_schedule : Bool)
    (place : String → Except Unit String) :
    List (String × Participant) → Ledger → LoopOut
  | [], s => { state := s, anyCalled := false, attempted := [], placed := [], errored := false }
  | (pid, p) :: rest, s =>
    let phone := pyStrip (p.phone_e164.getD "")
    if phone = "" then dispatchLoop now require_schedule place rest s
    else if ¬ can_call now s pid require_schedule then
      dispatchLoop now require_schedule place rest s
    else
      match place pid with
      | Except.error _ =>
        { state := s, anyCalled := false, attempted := [pid], placed := [], errored := true }
      | Except.ok sid =>
        let s1 := mark_call_started now s pid sid
        let out := dispatchLoop now require_schedule place rest s1
        { state := out.state, anyCalled := true,
          attempted := pid :: out.attempted, placed := pid :: out.placed,
          errored := out.errored }

/-- Observable outcome of one scheduler tick. -/
structure TickResult where
  state : Ledger          -- the ledger as persisted after the tick
  ledgerRead : Bool       -- load_participants ran
  attempted : List String
  placed : List String
  errored : Bool          -- an exception propagated out of run_once
  saved : Bool            -- save_participants ran
deriving DecidableEq, Repr

/-- One scheduler tick run_once (src/app/scheduler.py lines 19-71), with
the ambient ledger load/save explicit: `disk` is the persisted ledger the
tick loads, and the returned state is the persisted ledger afterwards (a
propagated exception skips the save, so the disk is unchanged).  The
function takes no pause input: run_once consults no paused flag. -/
def run_once (env : SchedEnv) (now : Int) (require_schedule : Bool)
    (place : String → Except Unit String) (disk : Ledger) : TickResult :=
  if ¬ envComplete env then
    { state := disk, ledgerRead := false, attempted := [], placed := [],
      errored := false, saved := false }
  else
    let out := dispatchLoop now require_schedule place disk disk
    if out.errored then
      { state := disk, ledgerRead := true, attempted := out.attempted,
        placed := out.placed, errored := true, saved := false }
    else if out.anyCalled then
      { state := out.state, ledgerRead := true, attempted := out.attempted,
        placed := out.placed, errored := false, saved := true }
    else
      { state := disk, ledgerRead := true, attempted := out.attempted,
        placed := out.placed, errored := false, saved := false }

/-- One dispatch operation for the attempts-cap invariant: the scheduler
checks can_call and on success mark_call_started increments attempts
(src/app/scheduler.py lines 49-65). -/
structure DispatchOp where
  now : Int
  pid : String
  sid : String
  require_schedule : Bool
deriving DecidableEq, Repr

/-- One dispatch: a can_call check that must return true, followed by
mark_call_started. -/
def dispatchStep (s : Ledger) (op : DispatchOp) : Ledger :=
  if can_call op.now s op.pid op.require_schedule then
    mark_call_started op.now s op.pid op.sid
  else s

/-- A finite sequence of dispatch operations applied in order. -/
def runDispatches (s : Ledger) (ops : List DispatchOp) : Ledger :=
  ops.foldl dispatchStep s

/-- JSON value, as json.loads produces it (numbers restricted to the
integers the store actually holds). -/
inductive JValue where
  | null
  | bool (b : Bool)
  | num (n : Int)
  | str (s : String)
  | arr (xs : List JValue)
  | obj (fields : List (String × JValue))

/-- DEFAULT of src/app/state.py lines 14-26 as the JSON key/value pairs
the migration loop iterates over, in dict order. -/
def DEFAULT_JSON : List (String × JValue) :=
  [("status", JValue.str "pending"),
   ("attempts", JValue.num 0),
   ("last_call_time", JValue.null),
   ("last_call_sid", JValue.null),
   ("last_call_status", JValue.null),
   ("engaged", JValue.bool false),
   ("last_recording_url", JValue.null),
   ("last_outputs", JValue.obj []),
   ("scheduled_time_local", JValue.null),
   ("scheduled_time_utc", JValue.null)]

/-- Key membership in a JSON object field list (`k in p` for a dict). -/
def hasKey (fields : List (String × JValue)) (k : String) : Bool :=
  fields.any (fun kv => kv.1 = k)

/-- Inner loop of migrate_add_schedule_fields over one participant value:
appends each DEFAULT key the record lacks.  A non-object participant value
raises in Python (the membership test or the item assignment fails on
non-dict values), modelled as `Except.error`. -/
def migrateParticipant : JValue → Except Unit (JValue × Bool)
  | JValue.obj fields =>
    let step := DEFAULT_JSON.foldl
      (fun (acc : List (String × JValue) × Bool) kv =>
        if hasKey acc.1 kv.1 then acc else (acc.1 ++ [kv], true))
      (fields, false)
    Except.ok (JValue.obj step.1, step.2)
  | _ => Except.error ()

/-- migrate_add_schedule_fields (src/app/state.py lines 42-53): iterates
state.items(); a non-object document raises (items() is undefined),
modelled as `Except.error`.  Returns the migrated document and whether any
change was made. -/
def migrate_add_schedule_fields : JValue → Except Unit (List (String × JValue) × Bool)
  | JValue.obj fields =>
    fields.foldl
      (fun acc (kv : String × JValue) => do
        let (done, changed) ← acc
        let (p1, c) ← migrateParticipant kv.2
        Except.ok (done ++ [(kv.1, p1)], changed || c))
      (Except.ok ([], false))
  | _ => Except.error ()

/-- Content of the participants.json store as the loader distinguishes it:
the file is missing, present but stripped-empty, present but json.loads
raises on it (or the read itself raises OSError), or well-formed JSON. -/
inductive StoreContent where
  | missing
  | blank
  | malformed
  | wellFormed (doc : JValue)

/-- Outcome of load_participants: the value returned to the caller (or a
propagated exception), whether the bad file was renamed to the .corrupt
path, and whether the migrated document was saved back. -/
structure LoadResult where
  result : Except Unit (List (String × JValue))
  renamedCorrupt : Bool
  savedMigrated : Bool

/-- load_participants (src/app/state.py lines 56-83), with the filesystem
read abstracted into `StoreContent`.  Missing or stripped-empty content
returns the empty dict; a json.loads or read failure renames the file to
the .corrupt path (best effort) and returns the empty dict; well-formed
JSON is migrated, which raises out of the function when the document is
not an object of objects. -/
def load_participants : StoreContent → LoadResult
  | StoreContent.missing =>
    { result := Except.ok [], renamedCorrupt := false, savedMigrated := false }
  | StoreContent.blank =>
    { result := Except.ok [], renamedCorrupt := false, savedMigrated := false }
  | StoreContent.malformed =>
    { result := Except.ok [], renamedCorrupt := true, savedMigrated := false }
  | StoreContent.wellFormed doc =>
    match migrate_add_schedule_fields doc with
    | Except.error _ =>
      { result := Except.error (), renamedCorrupt := false, savedMigrated := false }
    | Except.ok (migrated, changed) =>
      { result := Except.ok migrated, renamedCorrupt := false, savedMigrated := changed }

/-- Truth of an Except result (ok versus a raised error). -/
def exceptOk {α : Type} : Except Unit α → Bool
  | Except.ok _ => true
  | Except.error _ => false

/-- Whether a JSON value is an object. -/
def isObj : JValue → Bool
  | JValue.obj _ => true
  | _ => false

/-- Fold a list of (call sid, provider status) webhook events through the
/call-status handler, threading the persisted ledger. -/
def processStatuses (s : Ledger) (events : List (String × String)) : Ledger :=
  events.foldl (fun st e => (call_status st e.1 e.2).state) s

/-! Helper lemmas about the ledger operations. -/

theorem lookupP_setP (s : Ledger) (pid pid' : String) (p : Participant) :
    lookupP (setP s pid p) pid' = if pid' = pid then some p else lookupP s pid' := by
  induction s with
  | nil =>
    by_cases h : pid' = pid
    · subst h; simp [setP, lookupP]
    · simp [setP, lookupP, h, Ne.symm h]
  | cons kv rest ih =>
    obtain ⟨k, q⟩ := kv
    by_cases hk : k = pid
    · subst hk
      by_cases h : pid' = k
      · subst h; simp [setP, lookupP]
      · simp [setP, lookupP, h, Ne.symm h]
    · by_cases h : k = pid'
      · subst h
        simp [setP, lookupP, hk, Ne.symm hk]
      · simp [setP, lookupP, hk, h, ih]

theorem getP_setP (s : Ledger) (pid pid' : String) (p : Participant) :
    getP (setP s pid p) pid' = if pid' = pid then p else getP s pid' := by
  by_cases h : pid' = pid <;> simp [getP, lookupP_setP, h]

theorem getP_setP_same (s : Ledger) (pid : String) (p : Participant) :
    getP (setP s pid p) pid = p := by
  simp [getP_setP]

theorem getP_setP_other (s : Ledger) (pid pid' : String) (p : Participant)
    (h : pid' ≠ pid) : getP (setP s pid p) pid' = getP s pid' := by
  simp [getP_setP, h]

/-- A true can_call answer implies the participant record (DEFAULT when
absent) is below the attempts cap. -/
theorem can_call_true_attempts_lt (now : Int) (s : Ledger) (pid : String)
    (rs : Bool) (h : can_call now s pid rs = true) :
    attemptsOf s pid < MAX_ATTEMPTS := by
  unfold can_call at h
  unfold attemptsOf getP
  cases hl : lookupP s pid with
  | none => simp [DEFAULT, MAX_ATTEMPTS]
  | some p =>
    rw [hl] at h
    simp only [Option.getD_some]
    by_cases h1 : p.status = "completed" ∨ p.status = "failed"
    · simp [h1] at h
    · by_cases h2 : MAX_ATTEMPTS ≤ p.attempts
      · simp [h1, h2] at h
      · omega

/-- C10: for a participant id with no record in the ledger, can_call
returns true exactly when require_schedule is false: an unknown id is
eligible under forced/unscheduled dispatch and ineligible under normal
schedule-required dispatch. -/
theorem c10_missing_id (now : Int) (state : Ledger) (pid : String)
    (require_schedule : Bool) (h : lookupP state pid = none) :
    can_call now state pid require_schedule = !require_schedule := by
  unfold can_call
  rw [h]

/-- C10 witness at the empty ledger, in both modes. -/
theorem c10_missing_id_witness :
    can_call 0 [] "p1" true = !true ∧ can_call 0 [] "p1" false = !false :=
  ⟨c10_missing_id 0 [] "p1" true (by decide), c10_missing_id 0 [] "p1" false (by decide)⟩

/-- C1 counterexample: the claim says can_call with require_schedule=false
returns true for any non-terminal, under-cap participant regardless of
scheduled_time_utc and regardless of last_call_time.  Two concrete
participants refute it: one pending participant with attempts 0 whose
schedule parses to a future instant, and one whose last_call_time is one
second before now; can_call in force mode returns false for both. -/
theorem c1_counterexample :
    can_call 1000 [("p1",
      { status := "pending"
        attempts := 0
        scheduled_time_utc := SchedField.parses 2000 })] "p1" false = false ∧
    can_call 1000 [("p2",
      { status := "pending"
        attempts := 0
        last_call_time := TimeField.parses 999 })] "p2" false = false := by
  decide

/-- C1 (amended): with require_schedule=false, can_call returns true for a
participant whose status is not completed or failed and whose attempts are
below MAX_ATTEMPTS, provided additionally that any parseable
scheduled_time_utc is not in the future and any parseable last_call_time
is at least RETRY_GAP before now; force mode bypasses only the
schedule-must-exist requirement and the blocking of an unparseable
schedule. -/
theorem c1_amended (now : Int) (s : Ledger) (pid : String) (p : Participant)
    (hl : lookupP s pid = some p)
    (hs1 : p.status ≠ "completed") (hs2 : p.status ≠ "failed")
    (ha : p.attempts < MAX_ATTEMPTS)
    (hsched : ∀ t, p.scheduled_time_utc = SchedField.parses t → t ≤ now)
    (hgap : ∀ t, p.last_call_time = TimeField.parses t → RETRY_GAP ≤ now - t) :
    can_call now s pid false = true := by
  have hgapOk : retryGapOk now p = true := by
    unfold retryGapOk
    cases hlt : p.last_call_time with
    | absent => rfl
    | broken => rfl
    | parses t => simpa using hgap t hlt
  have hterm : ¬ (p.status = "completed" ∨ p.status = "failed") := by
    rintro (h | h)
    · exact hs1 h
    · exact hs2 h
  have hcap : ¬ (MAX_ATTEMPTS ≤ p.attempts) := by omega
  unfold can_call
  rw [hl]
  cases hsc : p.scheduled_time_utc with
  | absent => simp [hterm, hcap, hsc, hgapOk]
  | broken => simp [hterm, hcap, hsc, hgapOk]
  | parses t =>
    have ht : ¬ (now < t) := by have := hsched t hsc; omega
    simp [hterm, hcap, hsc, ht, hgapOk]

/-- C1 amended witness: a participant with a past schedule and a last call
more than RETRY_GAP ago is eligible in force mode. -/
theorem c1_amended_witness :
    can_call 10000
      [("p1",
        { scheduled_time_utc := SchedField.parses 500
          last_call_time := TimeField.parses 100 })] "p1" false = true :=
  c1_amended 10000
    [("p1",
      { scheduled_time_utc := SchedField.parses 500
        last_call_time := TimeField.parses 100 })] "p1"
    { scheduled_time_utc := SchedField.parses 500
      last_call_time := TimeField.parses 100 }
    (by decide) (by decide) (by decide) (by decide)
    (fun t ht => by injection ht with h; rw [← h]; decide)
    (fun t ht => by injection ht with h; rw [← h]; decide)

/-- mark_call_result writes only status and last_call_status: attempts,
both scheduled-time fields, engaged, the phone, and the call sid of every
participant are unchanged. -/
theorem mark_call_result_preserves (s : Ledger) (pid pid' cs : String) :
    (getP (mark_call_result s pid cs) pid').attempts = (getP s pid').attempts ∧
    (getP (mark_call_result s pid cs) pid').scheduled_time_utc = (getP s pid').scheduled_time_utc ∧
    (getP (mark_call_result s pid cs) pid').scheduled_time_local = (getP s pid').scheduled_time_local ∧
    (getP (mark_call_result s pid cs) pid').engaged = (getP s pid').engaged ∧
    (getP (mark_call_result s pid cs) pid').last_call_sid = (getP s pid').last_call_sid := by
  by_cases h : pid' = pid
  · subst h
    simp only [mark_call_result]
    split_ifs <;> simp [getP_setP]
  · simp only [mark_call_result]
    split_ifs <;> simp [getP_setP, h]

/-- C2 counterexample: the claim says a participant with status completed
is left unchanged by mark_call_result for any provider status string.  A
completed participant with attempts 1 receiving a no-answer status has its
status rewritten to pending. -/
theorem c2_counterexample :
    statusOf (mark_call_result [("p1",
      { status := "completed"
        attempts := 1 })] "p1" "no-answer") "p1" = "pending" ∧
    ("pending" : String) ≠ "completed" := by
  decide

/-- C2 (amended): terminality is enforced at dispatch, not in the mutation
helpers: can_call is false for every completed or failed participant in
both modes, so the dispatcher never starts a new call for one;
mark_call_result never changes the attempts or scheduled-time fields of
any participant, and a completed provider status leaves a completed
participant status unchanged; a schedule update leaves the status and
attempts of a terminal participant unchanged (while rewriting its
scheduled-time fields).  Retryable and progress provider statuses do
rewrite the status of a terminal participant. -/
theorem c2_amended :
    (∀ (now : Int) (s : Ledger) (pid : String) (p : Participant) (rs : Bool),
       lookupP s pid = some p →
       (p.status = "completed" ∨ p.status = "failed") →
       can_call now s pid rs = false) ∧
    (∀ (s : Ledger) (pid pid' cs : String),
       attemptsOf (mark_call_result s pid cs) pid' = attemptsOf s pid' ∧
       (getP (mark_call_result s pid cs) pid').scheduled_time_utc =
         (getP s pid').scheduled_time_utc ∧
       (getP (mark_call_result s pid cs) pid').scheduled_time_local =
         (getP s pid').scheduled_time_local) ∧
    (∀ (s : Ledger) (pid : String) (p : Participant),
       lookupP s pid = some p → p.status = "completed" →
       statusOf (mark_call_result s pid "completed") pid = "completed") ∧
    (∀ (s s1 : Ledger) (pid : String) (p : Participant)
       (parsed : Option (String × SchedField)),
       lookupP s pid = some p →
       (p.status = "completed" ∨ p.status = "failed") →
       schedule_participant s pid parsed = Except.ok s1 →
       statusOf s1 pid = p.status ∧ attemptsOf s1 pid = p.attempts) := by
  refine ⟨?_, ?_, ?_, ?_⟩
  · intro now s pid p rs hl hterm
    unfold can_call
    rw [hl]
    simp [hterm]
  · intro s pid pid' cs
    have h := mark_call_result_preserves s pid pid' cs
    exact ⟨h.1, h.2.1, h.2.2.1⟩
  · intro s pid p hl hcomp
    have hcs : pyStrip (pyLower "completed") = "completed" := by decide
    unfold statusOf
    simp only [mark_call_result, hcs]
    have hp : getP s pid = p := by simp [getP, hl]
    rw [hp]
    simp [hcomp, getP_setP]
  · intro s s1 pid p parsed hl hterm hok
    unfold schedule_participant at hok
    rw [hl] at hok
    match parsed with
    | none => simp at hok
    | some (localIso, utcField) =>
      simp only at hok
      rw [if_neg (not_not_intro hterm)] at hok
      have hs1 := Except.ok.inj hok
      rw [← hs1]
      simp [statusOf, attemptsOf, getP_setP]

/-- C2 amended witness at concrete terminal participants: a failed
participant is ineligible, mark_call_result leaves attempts alone, a
completed status event leaves a completed participant status unchanged,
and a schedule update leaves a failed participant status and attempts
unchanged. -/
theorem c2_amended_witness :
    can_call 0 [("p1", ({ status := "failed" } : Participant))] "p1" true = false ∧
    attemptsOf (mark_call_result
        [("p2", ({ status := "completed" } : Participant))] "p2" "busy") "p2" =
      attemptsOf [("p2", ({ status := "completed" } : Participant))] "p2" ∧
    statusOf (mark_call_result
        [("p3", ({ status := "completed" } : Participant))] "p3" "completed") "p3" =
      "completed" ∧
    statusOf [("p4",
      { status := "failed"
        scheduled_time_local := some "2026-01-01T09:00:00-05:00"
        scheduled_time_utc := SchedField.parses 10 })] "p4" = "failed" ∧
    attemptsOf [("p4",
      { status := "failed"
        scheduled_time_local := some "2026-01-01T09:00:00-05:00"
        scheduled_time_utc := SchedField.parses 10 })] "p4" = 0 := by
  refine ⟨?_, ?_, ?_, ?_⟩
  · exact c2_amended.1 0 [("p1", { status := "failed" })] "p1" { status := "failed" }
      true (by decide) (by decide)
  · exact (c2_amended.2.1 [("p2", { status := "completed" })] "p2" "p2" "busy").1
  · exact c2_amended.2.2.1 [("p3", { status := "completed" })] "p3"
      { status := "completed" } (by decide) (by decide)
  · have h := c2_amended.2.2.2 [("p4", { status := "failed" })]
      [("p4",
        { status := "failed"
          scheduled_time_local := some "2026-01-01T09:00:00-05:00"
          scheduled_time_utc := SchedField.parses 10 })] "p4" { status := "failed" }
      (some ("2026-01-01T09:00:00-05:00", SchedField.parses 10))
      (by decide) (by decide) rfl
    exact ⟨h.1, h.2⟩

/-- C3: run_once consults no paused flag.  Whenever the Twilio environment
is complete, every tick reads the ledger, for every possible input — the
model of run_once has no pause input at all, because the code of
src/app/scheduler.py never reads one, and set_paused / is_paused are not
defined in src/app/state.py although src/app/dashboard.py imports them.
The claimed skip-entirely-when-paused behaviour therefore does not exist
in the code. -/
theorem c3_run_once_never_skips_for_pause (env : SchedEnv) (now : Int)
    (require_schedule : Bool) (place : String → Except Unit String)
    (disk : Ledger) (henv : envComplete env = true) :
    (run_once env now require_schedule place disk).ledgerRead = true := by
  unfold run_once
  rw [if_neg (not_not_intro henv)]
  dsimp only
  split_ifs <;> rfl

/-- C3 witness: a concrete tick with complete environment reads the
ledger. -/
theorem c3_witness :
    (run_once ⟨some "AC", some "tok", some "+15550000", some "https://x"⟩ 0 true
      (fun _ => Except.error ()) []).ledgerRead = true :=
  c3_run_once_never_skips_for_pause
    ⟨some "AC", some "tok", some "+15550000", some "https://x"⟩ 0 true
    (fun _ => Except.error ()) [] (by decide)

/-- C4: a concrete two-participant batch in which placement for the first
eligible participant raises.  The loop aborts: the second participant is
never attempted, the exception propagates out of run_once, and the ledger
is not saved — refuting per-participant isolation.  Both participants are
eligible (due schedule, no prior call); the placement oracle fails for p1
and would succeed for p2. -/
theorem c4_batch_aborts_on_place_failure :
    run_once ⟨some "AC", some "tok", some "+15550000", some "https://x"⟩ 100 true
      (fun pid => if pid = "p1" then Except.error () else Except.ok "CA2")
      [("p1",
        { phone_e164 := some "+15550001"
          scheduled_time_utc := SchedField.parses 0 }),
       ("p2",
        { phone_e164 := some "+15550002"
          scheduled_time_utc := SchedField.parses 0 })] =
    { state := [("p1",
        { phone_e164 := some "+15550001"
          scheduled_time_utc := SchedField.parses 0 }),
       ("p2",
        { phone_e164 := some "+15550002"
          scheduled_time_utc := SchedField.parses 0 })]
      ledgerRead := true
      attempted := ["p1"]
      placed := []
      errored := true
      saved := false } := by
  decide

/-- C5 counterexample: the claim says an unknown session id in the
recording-done webhook causes no recording download, no pipeline run and
no audit record.  A recording-done event whose session id matches no
participant (empty ledger), with a recording URL and a transcript of six
words, downloads the recording, runs the pipeline, and appends an audit
record (while indeed acknowledging success and mutating no state). -/
theorem c5_counterexample :
    recording_done [] "CAunknown" (some "https://api.example/rec") "completed"
      { downloadOk := true
        transcript := "one two three four five six"
        detected := "sw"
        translated := "translated six word answer text here" } =
    { state := []
      resp := RdResp.ok
      downloaded := true
      pipelineRan := true
      auditLogged := true
      saved := false } := by
  decide

/-- C5 (amended): for an unknown session id the call-status handler
returns a success acknowledgment, mutates nothing and never saves; the
recording-done handler never mutates participant state and never saves
for an unknown session id, but — unlike the claim — it still downloads
the recording, runs the audio pipeline and appends an audit record when
processing succeeds (and a download failure raises rather than returning
success). -/
theorem c5_amended :
    (∀ (s : Ledger) (sid raw : String),
       find_participant_by_callsid s sid = none →
       call_status s sid raw = { state := s, respOk := true, saved := false }) ∧
    (∀ (s : Ledger) (sid : String) (url : Option String) (rstat : String)
       (o : RdOracle),
       find_participant_by_callsid s sid = none →
       (recording_done s sid url rstat o).state = s ∧
       (recording_done s sid url rstat o).saved = false) := by
  constructor
  · intro s sid raw hf
    unfold call_status
    rw [hf]
  · intro s sid url rstat o hf
    unfold recording_done
    by_cases h1 : rstat ≠ "" ∧ rstat ≠ "completed"
    · rw [if_pos h1]
      exact ⟨rfl, rfl⟩
    · rw [if_neg h1]
      cases url with
      | none => exact ⟨rfl, rfl⟩
      | some u =>
        dsimp only
        rw [hf]
        simp only [Option.isSome_none, Bool.false_and, Bool.false_eq_true, if_false]
        split_ifs <;> exact ⟨rfl, rfl⟩

/-- C5 witness: concrete unknown-session events on the empty ledger. -/
theorem c5_amended_witness :
    call_status [] "CAx" "completed" = { state := [], respOk := true, saved := false } ∧
    (recording_done [] "CAx" (some "https://api.example/rec") "completed"
      { downloadOk := false
        transcript := ""
        detected := ""
        translated := "" }).state = [] ∧
    (recording_done [] "CAx" (some "https://api.example/rec") "completed"
      { downloadOk := false
        transcript := ""
        detected := ""
        translated := "" }).saved = false :=
  ⟨c5_amended.1 [] "CAx" "completed" rfl,
   (c5_amended.2 [] "CAx" (some "https://api.example/rec") "completed"
     { downloadOk := false, transcript := "", detected := "", translated := "" } rfl).1,
   (c5_amended.2 [] "CAx" (some "https://api.example/rec") "completed"
     { downloadOk := false, transcript := "", detected := "", translated := "" } rfl).2⟩

/-- C6 counterexample: the claim attributes the pending downgrade to
mark_call_result itself, but mark_call_result with a completed provider
status on a not-yet-completed participant with engaged=false sets status
in_progress, not pending. -/
theorem c6_counterexample :
    statusOf (mark_call_result [("p1",
      { status := "pending"
        engaged := false })] "p1" "completed") "p1" = "in_progress" ∧
    ("in_progress" : String) ≠ "pending" := by
  decide

/-- C6 (amended): the pending downgrade for a telephonically completed call
without engagement is applied by the /call-status webhook handler, not by
mark_call_result: for a participant correlated to the event whose engaged
flag is false, processing a completed call-status event through the
handler yields status pending (mark_call_result alone yields in_progress
on a not-yet-completed participant). -/
theorem c6_amended (s : Ledger) (sid pid : String) (p : Participant)
    (hf : find_participant_by_callsid s sid = some (pid, p))
    (hl : lookupP s pid = some p)
    (he : p.engaged = false) :
    statusOf (call_status s sid "completed").state pid = "pending" := by
  unfold call_status
  rw [hf]
  dsimp only
  have hv : pyStrip (pyLower "completed") = "completed" := by decide
  rw [hv]
  have heng : (getP (mark_call_result s pid "completed") pid).engaged = false := by
    have hp := (mark_call_result_preserves s pid pid "completed").2.2.2.1
    rw [hp]
    simp [getP, hl, he]
  rw [heng]
  simp [statusOf, getP_setP]

/-- C6 amended witness: a concrete unengaged participant correlated by
call sid ends pending after a completed status event. -/
theorem c6_amended_witness :
    statusOf (call_status [("p1",
      { status := "pending"
        last_call_sid := some "CA1"
        engaged := false })] "CA1" "completed").state "p1" = "pending" :=
  c6_amended [("p1",
      { status := "pending"
        last_call_sid := some "CA1"
        engaged := false })] "CA1" "p1"
    { status := "pending"
      last_call_sid := some "CA1"
      engaged := false }
    (by decide) (by decide) (by decide)

/-- One dispatch preserves the attempts cap: when every participant of the
ledger is at or below MAX_ATTEMPTS, so is every participant after a
can_call-guarded mark_call_started. -/
theorem dispatchStep_attempts_cap (s : Ledger) (op : DispatchOp)
    (hinv : ∀ pid p, lookupP s pid = some p → p.attempts ≤ MAX_ATTEMPTS)
    (pid : String) (p : Participant)
    (hl : lookupP (dispatchStep s op) pid = some p) :
    p.attempts ≤ MAX_ATTEMPTS := by
  unfold dispatchStep at hl
  by_cases hc : can_call op.now s op.pid op.require_schedule = true
  · rw [if_pos hc] at hl
    unfold mark_call_started at hl
    rw [lookupP_setP] at hl
    by_cases hp : pid = op.pid
    · rw [if_pos hp] at hl
      have hlt := can_call_true_attempts_lt op.now s op.pid op.require_schedule hc
      unfold attemptsOf getP at hlt
      cases hl
      simp only
      unfold getP
      omega
    · rw [if_neg hp] at hl
      exact hinv pid p hl
  · rw [if_neg hc] at hl
    exact hinv pid p hl

/-- C7: from any ledger in which every participant satisfies
attempts ≤ MAX_ATTEMPTS, after any finite sequence of dispatch operations
(each a can_call check that must return true followed by
mark_call_started, which increments attempts by one), every participant
still satisfies attempts ≤ MAX_ATTEMPTS. -/
theorem c7_attempts_cap (s : Ledger) (ops : List DispatchOp)
    (hinv : ∀ pid p, lookupP s pid = some p → p.attempts ≤ MAX_ATTEMPTS)
    (pid : String) (p : Participant)
    (hl : lookupP (runDispatches s ops) pid = some p) :
    p.attempts ≤ MAX_ATTEMPTS := by
  induction ops generalizing s with
  | nil => exact hinv pid p hl
  | cons op rest ih =>
    exact ih (dispatchStep s op)
      (fun pid1 p1 hl1 => dispatchStep_attempts_cap s op hinv pid1 p1 hl1) hl

/-- C7 witness: one forced dispatch on a fresh single-participant ledger
leaves its attempts at 1, within the cap. -/
theorem c7_attempts_cap_witness :
    ({ status := "in_progress"
       attempts := 1
       last_call_time := TimeField.parses 0
       last_call_sid := some "CA1"
       engaged := false } : Participant).attempts ≤ MAX_ATTEMPTS :=
  c7_attempts_cap [("p1", {})] [⟨0, "p1", "CA1", false⟩]
    (fun pid p hl => by
      by_cases h : "p1" = pid
      · subst h
        simp [lookupP] at hl
        rw [← hl]
        decide
      · simp [lookupP, h] at hl)
    "p1"
    { status := "in_progress"
      attempts := 1
      last_call_time := TimeField.parses 0
      last_call_sid := some "CA1"
      engaged := false }
    (by decide)

/-- C9 counterexample: the claim says load_participants never raises for
any store content, including well-formed JSON that is not an object of
participant records.  A store holding the well-formed JSON document [] (a
top-level array) makes the migration call state.items() on a list, which
raises out of load_participants. -/
theorem c9_counterexample :
    (load_participants (StoreContent.wellFormed (JValue.arr []))).result =
      Except.error () := rfl

/-- Migration succeeds on every JSON object whose member values are all
objects. -/
theorem migrate_allObj_ok (fields : List (String × JValue))
    (h : fields.all (fun kv => isObj kv.2) = true) :
    exceptOk (migrate_add_schedule_fields (JValue.obj fields)) = true := by
  have hgen : ∀ (fs : List (String × JValue)),
      fs.all (fun kv => isObj kv.2) = true →
      ∀ (accE : Except Unit (List (String × JValue) × Bool)),
      exceptOk accE = true →
      exceptOk (fs.foldl
        (fun acc (kv : String × JValue) => do
          let (done, changed) ← acc
          let (p1, c) ← migrateParticipant kv.2
          Except.ok (done ++ [(kv.1, p1)], changed || c)) accE) = true := by
    intro fs
    induction fs with
    | nil =>
      intro _ accE hacc
      simpa using hacc
    | cons kv rest ih =>
      intro hall accE hacc
      rw [List.all_cons, Bool.and_eq_true] at hall
      obtain ⟨h1, h2⟩ := hall
      rw [List.foldl_cons]
      apply ih h2
      cases accE with
      | error e => simp [exceptOk] at hacc
      | ok acc =>
        obtain ⟨accL, accC⟩ := acc
        obtain ⟨k1, v1⟩ := kv
        cases v1 with
        | null => simp [isObj] at h1
        | bool b => simp [isObj] at h1
        | num n => simp [isObj] at h1
        | str s2 => simp [isObj] at h1
        | arr xs => simp [isObj] at h1
        | obj pf => rfl
  exact hgen fields h (Except.ok ([], false)) rfl

/-- C9 (amended): load_participants returns the empty map for a missing or
stripped-empty store, quarantines a store on which json.loads raises by
renaming it to the .corrupt path and returns the empty map, and never
raises for such content nor for a well-formed object-of-objects document;
but well-formed JSON that is not an object of object records (for example
a top-level array) makes the migration raise out of load_participants. -/
theorem c9_amended :
    ((load_participants StoreContent.missing).result = Except.ok [] ∧
     (load_participants StoreContent.blank).result = Except.ok [] ∧
     (load_participants StoreContent.malformed).result = Except.ok [] ∧
     (load_participants StoreContent.malformed).renamedCorrupt = true) ∧
    (∀ (fields : List (String × JValue)),
       fields.all (fun kv => isObj kv.2) = true →
       exceptOk (load_participants (StoreContent.wellFormed (JValue.obj fields))).result =
         true) := by
  refine ⟨⟨rfl, rfl, rfl, rfl⟩, ?_⟩
  intro fields h
  have hmig := migrate_allObj_ok fields h
  unfold load_participants
  dsimp only
  cases hm : migrate_add_schedule_fields (JValue.obj fields) with
  | error e =>
    rw [hm] at hmig
    simp [exceptOk] at hmig
  | ok pr =>
    obtain ⟨migrated, changed⟩ := pr
    rfl

/-- C9 amended witness: a concrete one-participant object document loads
without raising. -/
theorem c9_amended_witness :
    exceptOk (load_participants (StoreContent.wellFormed
      (JValue.obj [("p1", JValue.obj [("phone_e164", JValue.str "+15550001")])]))).result =
      true :=
  c9_amended.2 [("p1", JValue.obj [("phone_e164", JValue.str "+15550001")])] (by decide)

/-- Participant records other than the addressed one are untouched by
mark_call_result. -/
theorem getP_mark_call_result_other (s : Ledger) (pid pid' cs : String)
    (hp : pid' ≠ pid) :
    getP (mark_call_result s pid cs) pid' = getP s pid' := by
  simp only [mark_call_result]
  split_ifs <;> simp [getP_setP, hp]

/-- mark_call_result never introduces a completed status: a participant
whose status is not completed still does not have it afterwards. -/
theorem mark_call_result_not_completed (s : Ledger) (pid pid' cs : String)
    (h : statusOf s pid' ≠ "completed") :
    statusOf (mark_call_result s pid cs) pid' ≠ "completed" := by
  by_cases hp : pid' = pid
  · subst hp
    unfold statusOf at h ⊢
    simp only [mark_call_result]
    split_ifs <;> (simp [getP_setP]; try exact h)
  · unfold statusOf
    rw [getP_mark_call_result_other s pid pid' cs hp]
    exact h

/-- The call-status handler never sets the engaged flag: a participant
with engaged=false still has engaged=false afterwards. -/
theorem call_status_keeps_unengaged (s : Ledger) (sid cs pid : String)
    (h2 : (getP s pid).engaged = false) :
    (getP (call_status s sid cs).state pid).engaged = false := by
  unfold call_status
  cases hf : find_participant_by_callsid s sid with
  | none => exact h2
  | some pr =>
    obtain ⟨pid2, q⟩ := pr
    dsimp only
    have hse : (getP (mark_call_result s pid2 (pyStrip (pyLower cs))) pid).engaged = false := by
      by_cases hp : pid = pid2
      · subst hp
        rw [(mark_call_result_preserves s pid pid (pyStrip (pyLower cs))).2.2.2.1]
        exact h2
      · rw [getP_mark_call_result_other s pid2 pid (pyStrip (pyLower cs)) hp]
        exact h2
    split_ifs
    · rw [getP_setP]
      by_cases hp : pid = pid2
      · subst hp
        simp only [if_pos rfl]
        exact hse
      · rw [if_neg hp]
        exact hse
    · exact hse

/-- The call-status handler never sets a completed status: a participant
whose status is not completed still does not have it afterwards. -/
theorem call_status_keeps_not_completed (s : Ledger) (sid cs pid : String)
    (h1 : statusOf s pid ≠ "completed") :
    statusOf (call_status s sid cs).state pid ≠ "completed" := by
  unfold call_status
  cases hf : find_participant_by_callsid s sid with
  | none => exact h1
  | some pr =>
    obtain ⟨pid2, q⟩ := pr
    dsimp only
    have hss : statusOf (mark_call_result s pid2 (pyStrip (pyLower cs))) pid ≠ "completed" := by
      by_cases hp : pid = pid2
      · subst hp
        exact mark_call_result_not_completed s pid pid (pyStrip (pyLower cs)) h1
      · unfold statusOf
        rw [getP_mark_call_result_other s pid2 pid (pyStrip (pyLower cs)) hp]
        exact h1
    split_ifs
    · unfold statusOf
      rw [getP_setP]
      by_cases hp : pid = pid2
      · subst hp
        simp
      · rw [if_neg hp]
        exact hss
    · exact hss

/-- Keys of a ledger, in order. -/
def keysOf (s : Ledger) : List String := s.map Prod.fst

theorem setP_cons_same (k : String) (q : Participant) (rest : Ledger)
    (p : Participant) : setP ((k, q) :: rest) k p = (k, p) :: rest := by
  simp [setP]

theorem setP_cons_other (k : String) (q : Participant) (rest : Ledger)
    (pid : String) (p : Participant) (hk : k ≠ pid) :
    setP ((k, q) :: rest) pid p = (k, q) :: setP rest pid p := by
  simp [setP, hk]

theorem mem_keys_setP (s : Ledger) (pid x : String) (p : Participant)
    (h : x ∈ keysOf (setP s pid p)) : x ∈ keysOf s ∨ x = pid := by
  induction s with
  | nil =>
    simp only [setP, keysOf, List.map_cons, List.map_nil, List.mem_singleton] at h
    exact Or.inr h
  | cons kv rest ih =>
    obtain ⟨k, q⟩ := kv
    by_cases hk : k = pid
    · subst hk
      rw [setP_cons_same] at h
      simp only [keysOf, List.map_cons, List.mem_cons] at h ⊢
      exact Or.inl h
    · rw [setP_cons_other k q rest pid p hk] at h
      simp only [keysOf, List.map_cons, List.mem_cons] at h ⊢
      rcases h with h | h
      · exact Or.inl (Or.inl h)
      · rcases ih h with h2 | h2
        · exact Or.inl (Or.inr h2)
        · exact Or.inr h2

/-- Item assignment preserves distinctness of the keys. -/
theorem nodup_keys_setP (s : Ledger) (pid : String) (p : Participant)
    (h : (keysOf s).Nodup) : (keysOf (setP s pid p)).Nodup := by
  induction s with
  | nil => simp [setP, keysOf]
  | cons kv rest ih =>
    obtain ⟨k, q⟩ := kv
    simp only [keysOf, List.map_cons, List.nodup_cons] at h
    obtain ⟨hnm, hnd⟩ := h
    by_cases hk : k = pid
    · subst hk
      rw [setP_cons_same]
      simp only [keysOf, List.map_cons, List.nodup_cons]
      exact ⟨hnm, hnd⟩
    · rw [setP_cons_other k q rest pid p hk]
      simp only [keysOf, List.map_cons, List.nodup_cons]
      refine ⟨?_, ih hnd⟩
      intro hmem
      rcases mem_keys_setP rest pid k p hmem with h2 | h2
      · exact hnm h2
      · exact hk h2

theorem find_mem_keys (s : Ledger) (sid pid : String) (p : Participant)
    (hf : find_participant_by_callsid s sid = some (pid, p)) : pid ∈ keysOf s := by
  induction s with
  | nil => simp [find_participant_by_callsid] at hf
  | cons kv rest ih =>
    obtain ⟨k, q⟩ := kv
    unfold find_participant_by_callsid at hf
    by_cases hq : q.last_call_sid = some sid
    · rw [if_pos hq] at hf
      injection hf with hf2
      rw [Prod.mk.injEq] at hf2
      simp only [keysOf, List.map_cons]
      exact hf2.1 ▸ List.mem_cons_self k _
    · rw [if_neg hq] at hf
      simp only [keysOf, List.map_cons]
      exact List.mem_cons_of_mem k (ih hf)

/-- On a ledger with distinct keys, the record the session-id scan finds
is the record key lookup returns for the found id (in Python both are the
same dict entry). -/
theorem find_lookup_agree (s : Ledger) (sid pid : String) (p : Participant)
    (hnd : (keysOf s).Nodup)
    (hf : find_participant_by_callsid s sid = some (pid, p)) :
    lookupP s pid = some p := by
  induction s with
  | nil => simp [find_participant_by_callsid] at hf
  | cons kv rest ih =>
    obtain ⟨k, q⟩ := kv
    simp only [keysOf, List.map_cons, List.nodup_cons] at hnd
    obtain ⟨hnm, hnd2⟩ := hnd
    unfold find_participant_by_callsid at hf
    unfold lookupP
    by_cases hq : q.last_call_sid = some sid
    · rw [if_pos hq] at hf
      injection hf with hf2
      rw [Prod.mk.injEq] at hf2
      rw [if_pos hf2.1, hf2.2]
    · rw [if_neg hq] at hf
      have hmem := find_mem_keys rest sid pid p hf
      have hk : k ≠ pid := fun he => hnm (he ▸ hmem)
      rw [if_neg hk]
      exact ih hnd2 hf

theorem nodup_keys_mark_call_result (s : Ledger) (pid cs : String)
    (h : (keysOf s).Nodup) : (keysOf (mark_call_result s pid cs)).Nodup := by
  simp only [mark_call_result]
  split_ifs <;> exact nodup_keys_setP s pid _ h

theorem nodup_keys_call_status (s : Ledger) (sid cs : String)
    (h : (keysOf s).Nodup) : (keysOf (call_status s sid cs).state).Nodup := by
  unfold call_status
  cases hf : find_participant_by_callsid s sid with
  | none => exact h
  | some pr =>
    obtain ⟨pid2, q⟩ := pr
    dsimp only
    split_ifs
    · exact nodup_keys_setP _ pid2 _ (nodup_keys_mark_call_result s pid2 _ h)
    · exact nodup_keys_mark_call_result s pid2 _ h

theorem nodup_keys_processStatuses (events : List (String × String))
    (s : Ledger) (h : (keysOf s).Nodup) :
    (keysOf (processStatuses s events)).Nodup := by
  induction events generalizing s with
  | nil => exact h
  | cons e rest ih =>
    exact ih (call_status s e.1 e.2).state (nodup_keys_call_status s e.1 e.2 h)

/-- Processing a completed call-status event for a participant correlated
by session id whose engaged flag is false downgrades that participant to
pending (the handler-level special rule). -/
theorem call_status_completed_unengaged_pending (s : Ledger) (sid pid : String)
    (p : Participant)
    (hf : find_participant_by_callsid s sid = some (pid, p))
    (hl : lookupP s pid = some p)
    (he : p.engaged = false) :
    statusOf (call_status s sid "completed").state pid = "pending" := by
  unfold call_status
  rw [hf]
  dsimp only
  have hv : pyStrip (pyLower "completed") = "completed" := by decide
  rw [hv]
  have heng : (getP (mark_call_result s pid "completed") pid).engaged = false := by
    have hp := (mark_call_result_preserves s pid pid "completed").2.2.2.1
    rw [hp]
    simp [getP, hl, he]
  rw [heng]
  simp [statusOf, getP_setP]

/-- A participant who is not completed and not engaged stays so through
any sequence of call-status events. -/
theorem processStatuses_keeps (events : List (String × String)) (s : Ledger)
    (pid : String)
    (h1 : statusOf s pid ≠ "completed")
    (h2 : (getP s pid).engaged = false) :
    statusOf (processStatuses s events) pid ≠ "completed" ∧
    (getP (processStatuses s events) pid).engaged = false := by
  induction events generalizing s with
  | nil => exact ⟨h1, h2⟩
  | cons e rest ih =>
    exact ih (call_status s e.1 e.2).state
      (call_status_keeps_not_completed s e.1 e.2 pid h1)
      (call_status_keeps_unengaged s e.1 e.2 pid h2)

theorem mark_completed_other_keeps (s : Ledger) (pid2 pid u : String)
    (outs : List (String × String)) (hp : pid ≠ pid2)
    (h1 : statusOf s pid ≠ "completed") :
    statusOf (mark_completed s pid2 u outs) pid ≠ "completed" := by
  unfold statusOf mark_completed
  rw [getP_setP, if_neg hp]
  exact h1

/-- The recording-done handler never completes a participant who is not
completed and whose engaged flag is false, whatever recording event
arrives. -/
theorem recording_done_keeps_uncompleted (s : Ledger) (sid2 : String)
    (url : Option String) (rstat : String) (o : RdOracle) (pid : String)
    (hnd : (keysOf s).Nodup)
    (h1 : statusOf s pid ≠ "completed")
    (h2 : (getP s pid).engaged = false) :
    statusOf (recording_done s sid2 url rstat o).state pid ≠ "completed" := by
  unfold recording_done
  by_cases hr : rstat ≠ "" ∧ rstat ≠ "completed"
  · rw [if_pos hr]
    exact h1
  · rw [if_neg hr]
    cases url with
    | none => exact h1
    | some u =>
      dsimp only
      cases hf : find_participant_by_callsid s sid2 with
      | none =>
        simp only [hf, Option.isSome_none, Bool.false_and, Bool.false_eq_true, if_false]
        split_ifs <;> exact h1
      | some pr =>
        obtain ⟨pid2, q⟩ := pr
        simp only [hf]
        simp only [Option.isSome_some, Bool.true_and]
        by_cases c1 : (pyLower (q.last_call_status.getD "") == "no-answer" ||
            pyLower (q.last_call_status.getD "") == "busy" ||
            pyLower (q.last_call_status.getD "") == "failed" ||
            pyLower (q.last_call_status.getD "") == "canceled") = true
        · rw [if_pos c1]
          exact h1
        · rw [if_neg c1]
          by_cases c2 : (!q.engaged) = true
          · rw [if_pos c2]
            exact h1
          · rw [if_neg c2]
            by_cases c3 : ¬ o.downloadOk = true
            · rw [if_pos c3]
              exact h1
            · rw [if_neg c3]
              by_cases c4 : wordCount o.transcript < 5
              · rw [if_pos c4]
                exact h1
              · rw [if_neg c4]
                have hq : q.engaged = true := by
                  cases hqe : q.engaged with
                  | true => rfl
                  | false => exact absurd (by rw [hqe]; rfl) c2
                have hlq := find_lookup_agree s sid2 pid2 q hnd hf
                have hp : pid ≠ pid2 := by
                  intro hpe
                  rw [hpe, getP, hlq] at h2
                  simp only [Option.getD_some] at h2
                  rw [h2] at hq
                  exact Bool.false_ne_true hq
                exact mark_completed_other_keeps s pid2 pid u _ hp h1

/-- C8: after a completed call-status event is processed for a participant
correlated by session id whose engagement was never raised in the current
attempt (engaged=false), no subsequent call-status traffic and no
recording-ready event can mark that participant completed: the completion
path is skipped whenever engaged=false. -/
theorem c8_never_completed_without_engagement (s : Ledger) (sid pid : String)
    (p : Participant)
    (hnd : (keysOf s).Nodup)
    (hf : find_participant_by_callsid s sid = some (pid, p))
    (he : p.engaged = false)
    (events : List (String × String))
    (sid2 : String) (url : Option String) (rstat : String) (o : RdOracle) :
    statusOf (recording_done
      (processStatuses (call_status s sid "completed").state events)
      sid2 url rstat o).state pid ≠ "completed" := by
  have hl := find_lookup_agree s sid pid p hnd hf
  have hstat1 : statusOf (call_status s sid "completed").state pid = "pending" :=
    call_status_completed_unengaged_pending s sid pid p hf hl he
  have heng0 : (getP s pid).engaged = false := by
    rw [getP, hl]
    exact he
  have heng1 : (getP (call_status s sid "completed").state pid).engaged = false :=
    call_status_keeps_unengaged s sid "completed" pid heng0
  have hnd1 : (keysOf (call_status s sid "completed").state).Nodup :=
    nodup_keys_call_status s sid "completed" hnd
  have hmid := processStatuses_keeps events (call_status s sid "completed").state pid
    (by rw [hstat1]; decide) heng1
  exact recording_done_keeps_uncompleted _ sid2 url rstat o pid
    (nodup_keys_processStatuses events _ hnd1) hmid.1 hmid.2

/-- C8 witness: a concrete scenario-B trace — completed status event,
no engagement, then a recording-ready event with a long transcript —
leaves the participant not completed. -/
theorem c8_witness :
    statusOf (recording_done
      (processStatuses (call_status [("p1",
        { status := "in_progress"
          last_call_sid := some "CA1"
          last_call_status := some "completed"
          engaged := false })] "CA1" "completed").state [])
      "CA1" (some "https://api.example/rec") "completed"
      { downloadOk := true
        transcript := "one two three four five six"
        detected := "sw"
        translated := "translated answer" }).state "p1" ≠ "completed" :=
  c8_never_completed_without_engagement
    [("p1",
      { status := "in_progress"
        last_call_sid := some "CA1"
        last_call_status := some "completed"
        engaged := false })] "CA1" "p1"
    { status := "in_progress"
      last_call_sid := some "CA1"
      last_call_status := some "completed"
      engaged := false }
    (by decide) (by decide) (by decide)
    [] "CA1" (some "https://api.example/rec") "completed"
    { downloadOk := true
      transcript := "one two three four five six"
      detected := "sw"
      translated := "translated answer" }
